import Mathlib

/-!
# Northstar plan-draft model

A shallow embedding of the plan-draft logic of the Northstar fitness
client: the draft maps kept by the plan/week editing screens, the
change-detection comparison, the save pipelines (plan creation and
edit-mode week save), the current-plan marking, the exercise picker
search, and the add-exercise validation.

JavaScript objects keyed by day numbers are modelled as association
lists `List (Nat × α)`; the first entry for a key is its value
(JavaScript objects never hold duplicate keys, so theorems that need
exact key counts assume `Nodup` on the key list).  `AsyncStorage` is
modelled as an association list from string keys to typed draft
values.  Nullable SQL columns are `Option` fields.
-/

set_option autoImplicit false

namespace Northstar

/-- One exercise entry of a day's draft list, as held in component state
and in AsyncStorage (`DayExercise` in `src/types/workout`). -/
structure DayExercise where
  id : String
  name : String
  sets : Int
  reps : Int
  rest_seconds : Int
  deriving DecidableEq, Repr

/-- A row of the `plan_day_exercises` table.  `week_number` is null for
rows written by the single-week plan-creation flow; the exercise fields
are null on placeholder (day-without-exercise) rows. -/
structure AssignmentRow where
  plan_id : String
  week_number : Option Nat
  day_order : Nat
  day_name : String
  exercise_id : Option String
  sets : Option Int
  reps : Option Int
  rest_seconds : Option Int
  deriving DecidableEq, Repr

/-- A row of the `workout_plans` table (fields the model needs). -/
structure Plan where
  id : String
  name : String
  is_current : Bool
  deriving DecidableEq, Repr

/-- A catalog row of the `exercises` table. -/
structure CatalogExercise where
  id : String
  name : String
  deriving DecidableEq, Repr

/-- JavaScript `String.prototype.trim`: strip leading and trailing
whitespace. -/
def jsTrim (s : String) : String :=
  String.mk
    (((s.data.dropWhile Char.isWhitespace).reverse.dropWhile
        Char.isWhitespace).reverse)

/-- First value stored under a numeric key in a JS-object-as-map
(`obj[key]`, `undefined` becoming `none`). -/
def lookupKey {α : Type} (l : List (Nat × α)) (k : Nat) : Option α :=
  match l with
  | [] => none
  | (k', v) :: rest => if k' = k then some v else lookupKey rest k

/-- Keys of the merged object `{ ...a, ...b }`. -/
def unionKeys {α β : Type} (a : List (Nat × α)) (b : List (Nat × β)) :
    List Nat :=
  (a.map Prod.fst ++ b.map Prod.fst).dedup

/-! ## Change detection (`hasChanges`, week screen back button) -/

/-- The test `Object.keys(dayNames).length !== Object.keys(initialDayNames).length`. -/
def dayNamesLengthDiff (dayNames initialDayNames : List (Nat × String)) : Bool :=
  dayNames.length != initialDayNames.length

/-- The test `Object.keys({...dayNames, ...initialDayNames}).some(key =>
dayNames[key] !== initialDayNames[key])`. -/
def dayNamesContentDiff (dayNames initialDayNames : List (Nat × String)) : Bool :=
  (unionKeys dayNames initialDayNames).any fun k =>
    lookupKey dayNames k != lookupKey initialDayNames k

/-- The test `Object.keys(dayExercises).length !== Object.keys(initialDayExercises).length`. -/
def exercisesLengthDiff
    (dayExercises initialDayExercises : List (Nat × List DayExercise)) : Bool :=
  dayExercises.length != initialDayExercises.length

/-- The test `Object.keys({...dayExercises, ...initialDayExercises}).some(key =>
JSON.stringify(dayExercises[key] || []) !== JSON.stringify(initialDayExercises[key] || []))`:
serialized equality of the two lists, an absent key reading as `[]`. -/
def exercisesContentDiff
    (dayExercises initialDayExercises : List (Nat × List DayExercise)) : Bool :=
  (unionKeys dayExercises initialDayExercises).any fun k =>
    (lookupKey dayExercises k).getD [] != (lookupKey initialDayExercises k).getD []

/-- The week screen's change detection: any of the four length/content
differences between current and initial state. -/
def hasChanges (dayNames initialDayNames : List (Nat × String))
    (dayExercises initialDayExercises : List (Nat × List DayExercise)) : Bool :=
  dayNamesLengthDiff dayNames initialDayNames
    || dayNamesContentDiff dayNames initialDayNames
    || exercisesLengthDiff dayExercises initialDayExercises
    || exercisesContentDiff dayExercises initialDayExercises

/-! ## Draft Store (AsyncStorage) -/

/-- A value held in AsyncStorage, typed by which screen wrote it. -/
inductive DraftValue where
  /-- the `...DayNames` blob of a week draft -/
  | names (m : List (Nat × String))
  /-- the `...Exercises` blob of a week draft -/
  | exercisesBlob (m : List (Nat × List DayExercise))
  /-- the `newPlanFormData` blob of the plan-creation draft -/
  | planForm (name : String) (dayExercises : List (Nat × List DayExercise))
      (dayNames : List (Nat × String))
  deriving DecidableEq, Repr

/-- AsyncStorage: string-keyed map, modelled as an association list. -/
def DraftStore : Type := List (String × DraftValue)

/-- Read of `AsyncStorage.getItem(key)`. -/
def getItem (store : DraftStore) (key : String) : Option DraftValue :=
  match store with
  | [] => none
  | (k, v) :: rest => if k = key then some v else getItem rest key

/-- Write of `AsyncStorage.setItem(key, value)`: replaces the entry if present,
appends it otherwise. -/
def setItem (store : DraftStore) (key : String) (v : DraftValue) : DraftStore :=
  match store with
  | [] => [(key, v)]
  | (k, w) :: rest =>
      if k = key then (k, v) :: rest else (k, w) :: setItem rest key v

/-- Removal by `AsyncStorage.removeItem(key)`. -/
def removeItem (store : DraftStore) (key : String) : DraftStore :=
  store.filter fun p => p.1 ≠ key

/-- AsyncStorage key `plan_${planId}_week${weekNumber}DayNames`. -/
def weekDayNamesKey (planId : String) (weekNumber : Nat) : String :=
  "plan_" ++ planId ++ "_week" ++ toString weekNumber ++ "DayNames"

/-- AsyncStorage key `plan_${planId}_week${weekNumber}Exercises`. -/
def weekExercisesKey (planId : String) (weekNumber : Nat) : String :=
  "plan_" ++ planId ++ "_week" ++ toString weekNumber ++ "Exercises"

/-! ## Edit-mode week save (`handleSaveWeek`, week screen) -/

/-- The placeholder row the week save builds from an entry of
`dayNames`: no exercise data. -/
def weekPlaceholderRow (planId : String) (weekNumber : Nat)
    (p : Nat × String) : AssignmentRow :=
  { plan_id := planId
    week_number := some weekNumber
    day_order := p.1
    day_name := p.2
    exercise_id := none
    sets := none
    reps := none
    rest_seconds := none }

/-- The row the week save builds for one exercise of day `k`, the day
name read from `dayNames` (`dayNames[...] || ''`). -/
def weekExerciseRow (planId : String) (weekNumber : Nat)
    (dayNames : List (Nat × String)) (k : Nat) (ex : DayExercise) :
    AssignmentRow :=
  { plan_id := planId
    week_number := some weekNumber
    day_order := k
    day_name := (lookupKey dayNames k).getD ""
    exercise_id := some ex.id
    sets := some ex.sets
    reps := some ex.reps
    rest_seconds := some ex.rest_seconds }

/-- The rows `handleSaveWeek` bulk-inserts: one placeholder row (null
exercise fields) per entry of `dayNames`, then one row per exercise of
each day of `dayExercises`. -/
def buildWeekRows (planId : String) (weekNumber : Nat)
    (dayNames : List (Nat × String))
    (dayExercises : List (Nat × List DayExercise)) : List AssignmentRow :=
  dayNames.map (weekPlaceholderRow planId weekNumber)
    ++ dayExercises.flatMap fun p =>
        p.2.map (weekExerciseRow planId weekNumber dayNames p.1)

/-- A row belongs to the scope being replaced by a week save. -/
def inWeekScope (planId : String) (weekNumber : Nat) (r : AssignmentRow) : Bool :=
  r.plan_id == planId && r.week_number == some weekNumber

/-- The successful path of `handleSaveWeek`: delete every assignment row
of the plan/week, insert `buildWeekRows`, then write the current
`dayNames` and `dayExercises` back to AsyncStorage under the week's
keys.  Returns the new remote table and the new draft store. -/
def handleSaveWeek (planId : String) (weekNumber : Nat)
    (dayNames : List (Nat × String))
    (dayExercises : List (Nat × List DayExercise))
    (remote : List AssignmentRow) (draft : DraftStore) :
    List AssignmentRow × DraftStore :=
  let afterDelete := remote.filter fun r => !inWeekScope planId weekNumber r
  let rows := buildWeekRows planId weekNumber dayNames dayExercises
  let draft1 := setItem draft (weekDayNamesKey planId weekNumber) (.names dayNames)
  let draft2 := setItem draft1 (weekExercisesKey planId weekNumber)
    (.exercisesBlob dayExercises)
  (afterDelete ++ rows, draft2)

/-! ## Plan creation save (`handleSavePlan`, new-plan screen) -/

/-- A day fails the second validation of `handleSavePlan` when it has at
least one exercise and no (trimmed) day name. -/
def missingDayName (dayNames : List (Nat × String))
    (p : Nat × List DayExercise) : Bool :=
  decide (0 < p.2.length) && jsTrim ((lookupKey dayNames p.1).getD "") == ""

/-- The rows `handleSavePlan` bulk-inserts: first a placeholder row per
day whose trimmed name is non-empty and whose exercise list is absent
or empty, then the exercise rows of every day that has a non-empty
trimmed name (days with exercises but no name are skipped by the
`continue`; validation has already rejected that case). -/
def buildPlanRows (planId : String) (dayNames : List (Nat × String))
    (dayExercises : List (Nat × List DayExercise)) : List AssignmentRow :=
  (dayNames.filterMap fun p =>
    if jsTrim p.2 ≠ "" ∧ ((lookupKey dayExercises p.1).getD []).length = 0 then
      some { plan_id := planId
             week_number := none
             day_order := p.1
             day_name := jsTrim p.2
             exercise_id := none
             sets := none
             reps := none
             rest_seconds := none }
    else none)
  ++ dayExercises.flatMap fun p =>
    let dayName := jsTrim ((lookupKey dayNames p.1).getD "")
    if dayName = "" then []
    else p.2.map fun ex =>
      { plan_id := planId
        week_number := none
        day_order := p.1
        day_name := dayName
        exercise_id := some ex.id
        sets := some ex.sets
        reps := some ex.reps
        rest_seconds := some ex.rest_seconds }

/-- The remote state the plan-creation flow touches. -/
structure RemoteState where
  plans : List Plan
  assignments : List AssignmentRow
  deriving DecidableEq, Repr

/-- Outcome of `handleSavePlan`: one of the two validation alerts, or a
successful save of the new plan. -/
inductive SavePlanOutcome where
  | nameAlert
  | dayNamesAlert
  | success (plan : Plan)
  deriving DecidableEq, Repr

/-- The `handleSavePlan` of the new-plan screen.  Validation first: empty
trimmed plan name, then any day with exercises but no trimmed day name
— each alerts and returns with no remote access.  Otherwise the plan
row is inserted (`is_current` true exactly when no current plan
exists), the assignment rows are bulk-inserted, and the
`newPlanFormData` draft entry is removed.  `newId` stands for the id
the database generates for the inserted plan. -/
def handleSavePlan (newId : String) (name : String)
    (dayNames : List (Nat × String))
    (dayExercises : List (Nat × List DayExercise))
    (st : RemoteState) (draft : DraftStore) :
    SavePlanOutcome × RemoteState × DraftStore :=
  if jsTrim name = "" then
    (.nameAlert, st, draft)
  else if dayExercises.any (missingDayName dayNames) then
    (.dayNamesAlert, st, draft)
  else
    let shouldBeCurrent := (st.plans.filter (·.is_current)).isEmpty
    let plan : Plan := { id := newId, name := jsTrim name, is_current := shouldBeCurrent }
    let rows := buildPlanRows newId dayNames dayExercises
    (.success plan,
     { plans := st.plans ++ [plan], assignments := st.assignments ++ rows },
     removeItem draft "newPlanFormData")

/-! ## Current-plan marking (`handleChangePlan`, plan view screen) -/

/-- The `handleChangePlan` operation: first update every plan of the user to
`is_current = false`, then update the plan with the given id to
`is_current = true`.  The model holds one user's plans. -/
def handleChangePlan (id : String) (plans : List Plan) : List Plan :=
  (plans.map fun p => { p with is_current := false }).map fun p =>
    if p.id = id then { p with is_current := true } else p

/-- At most one plan carries `is_current = true`. -/
def atMostOneCurrent (plans : List Plan) : Prop :=
  plans.countP (·.is_current) ≤ 1

instance (plans : List Plan) : Decidable (atMostOneCurrent plans) := by
  unfold atMostOneCurrent
  infer_instance

/-! ## Exercise picker search (`searchExercises`, add-exercise screen) -/

/-- Lower-case a string character-wise (`toLowerCase`, as the
case-insensitivity of `ilike`). -/
def lowerStr (s : String) : String :=
  String.mk (s.data.map Char.toLower)

/-- Lexicographic comparison of character lists: the collation of the
remote store's `order('name')`. -/
def charListLe : List Char → List Char → Bool
  | [], _ => true
  | _ :: _, [] => false
  | a :: as, b :: bs => if a = b then charListLe as bs else decide (a < b)

/-- Alphabetical order on catalog exercises, by name. -/
def nameLe (a b : CatalogExercise) : Prop :=
  charListLe a.name.data b.name.data = true

instance : DecidableRel nameLe := fun a b =>
  instDecidableEqBool (charListLe a.name.data b.name.data) true

/-- Whether `needle` occurs as a contiguous substring of `haystack`.
This is the spec's notion of "name contains the query", stated for
comparison with the remote store's LIKE matching; it is not itself part
of the program. -/
def containsSub (haystack needle : List Char) : Bool :=
  match haystack with
  | [] => needle.isEmpty
  | _ :: rest => needle.isPrefixOf haystack || containsSub rest needle

/-- SQL LIKE pattern matching: the pattern matches the whole string,
with `%` matching any sequence, `_` matching exactly one character, and
a backslash escaping the next pattern character (the default escape).
A pattern consisting of a lone trailing backslash (unreachable from the
program's `%...%` patterns, which can only end in `%` or an escaped
character) is taken to match a literal backslash. -/
def likeMatch : List Char → List Char → Bool
  | [], s => s.isEmpty
  | '%' :: ps, s => s.tails.any fun t => likeMatch ps t
  | '_' :: ps, s =>
      match s with
      | [] => false
      | _ :: s' => likeMatch ps s'
  | ['\\'], s =>
      match s with
      | [] => false
      | x :: s' => (x == '\\') && s'.isEmpty
  | '\\' :: c' :: ps, s =>
      match s with
      | [] => false
      | x :: s' => (x == c') && likeMatch ps s'
  | c :: ps, s =>
      match s with
      | [] => false
      | x :: s' => (x == c) && likeMatch ps s'

/-- The predicate of `ilike('name', `%${searchQuery}%`)`: the raw query
is interpolated into the LIKE pattern, so `%` and `_` inside the query
act as wildcards and a backslash as the escape; the comparison is
case-insensitive (both sides lowercased). -/
def nameMatches (query : String) (e : CatalogExercise) : Bool :=
  likeMatch (lowerStr ("%" ++ query ++ "%")).data (lowerStr e.name).data

/-- The `searchExercises` of the add-exercise screen applied to the catalog:
an empty (or whitespace-only) query clears the results without a remote
call; otherwise the remote query filters by case-insensitive substring,
orders by name, and limits to 10.  The second component records whether
a remote call was made. -/
def searchExercises (query : String) (catalog : List CatalogExercise) :
    List CatalogExercise × Bool :=
  if jsTrim query = "" then ([], false)
  else
    (((catalog.filter (nameMatches query)).insertionSort nameLe).take 10,
     true)

/-- The state update `searchExercises` performs on the screen's
`exercises` state, given the remote response: on success the results
replace the state; on error the state is left unchanged and the only
effect is a console log — the returned list of alert messages stays
empty (`Alert.alert` is never called on this path). -/
def searchExercisesUpdate (query : String) (prev : List CatalogExercise)
    (response : Except String (List CatalogExercise)) :
    List CatalogExercise × List String :=
  if jsTrim query = "" then ([], [])
  else
    match response with
    | .ok data => (data, [])
    | .error _ => (prev, [])

/-! ## Add-exercise validation (`handleSave`, add-exercise screen) -/

/-- JavaScript `parseInt` on a base-10 numeral string: skip leading
whitespace, read an optional sign and then the longest digit prefix;
`NaN` (here `none`) when no digit is found. -/
def jsParseInt (s : String) : Option Int :=
  let chars := s.data.dropWhile Char.isWhitespace
  let signed : Bool × List Char :=
    match chars with
    | '-' :: rest => (true, rest)
    | '+' :: rest => (false, rest)
    | rest => (false, rest)
  let digits := signed.2.takeWhile Char.isDigit
  if digits.isEmpty then none
  else
    let n : Nat := digits.foldl (fun acc c => acc * 10 + (c.toNat - 48)) 0
    some (if signed.1 then -(n : Int) else (n : Int))

/-- Outcome of the add-exercise `handleSave`: a validation alert with no
remote write, or the single inserted assignment row. -/
inductive AddExerciseResult where
  | alert (msg : String)
  | inserted (row : AssignmentRow)
  deriving DecidableEq, Repr

/-- The `handleSave` of the add-exercise screen: requires a selected
exercise, then parses sets/reps/rest and rejects `NaN`, `sets < 1`,
`reps < 1`, `rest < 0` in that order before any remote call; otherwise
inserts one row referencing the exercise. -/
def addExerciseHandleSave (selected : Option CatalogExercise)
    (sets reps restSeconds : String)
    (planId dayName : String) (dayOrder : Nat) : AddExerciseResult :=
  match selected with
  | none => .alert "Please select an exercise"
  | some ex =>
    let setsNum := jsParseInt sets
    let repsNum := jsParseInt reps
    let restNum := jsParseInt restSeconds
    match setsNum with
    | none => .alert "Please enter a valid number of sets"
    | some s =>
      if s < 1 then .alert "Please enter a valid number of sets"
      else
        match repsNum with
        | none => .alert "Please enter a valid number of reps"
        | some r =>
          if r < 1 then .alert "Please enter a valid number of reps"
          else
            match restNum with
            | none => .alert "Please enter a valid rest time"
            | some t =>
              if t < 0 then .alert "Please enter a valid rest time"
              else
                .inserted
                  { plan_id := planId
                    week_number := none
                    day_order := dayOrder
                    day_name := dayName
                    exercise_id := some ex.id
                    sets := some s
                    reps := some r
                    rest_seconds := some t }

/-! ## Edit-mode initial load (`loadInitialData`, week screen) -/

/-- A row as fetched by `loadInitialData` (assignment columns joined
with the exercise's name). -/
structure FetchedRow where
  day_order : Nat
  day_name : String
  exercise_id : Option String
  exercise_name : String
  sets : Option Int
  reps : Option Int
  rest_seconds : Option Int
  deriving DecidableEq, Repr

/-- Assignment `obj[key] = v` on a JS object: overwrite in place, or append. -/
def insertAssoc {α : Type} (l : List (Nat × α)) (k : Nat) (v : α) :
    List (Nat × α) :=
  match l with
  | [] => [(k, v)]
  | (k', w) :: rest =>
      if k' = k then (k', v) :: rest else (k', w) :: insertAssoc rest k v

/-- Coercion `x || 0` on a nullable number column. -/
def orZero (o : Option Int) : Int := o.getD 0

/-- One step of the state-building loop of `loadInitialData`: the
fetched row stores its non-empty day name under its day order, and —
when it references an exercise — appends a `DayExercise` to the day's
list, null numeric columns coerced to 0 (`day.sets || 0`). -/
def processRow (acc : List (Nat × String) × List (Nat × List DayExercise))
    (row : FetchedRow) :
    List (Nat × String) × List (Nat × List DayExercise) :=
  let names := if row.day_name ≠ "" then
      insertAssoc acc.1 row.day_order row.day_name
    else acc.1
  let exercises :=
    match row.exercise_id with
    | none => acc.2
    | some exId =>
        insertAssoc acc.2 row.day_order
          ((lookupKey acc.2 row.day_order).getD [] ++
            [{ id := exId
               name := row.exercise_name
               sets := orZero row.sets
               reps := orZero row.reps
               rest_seconds := orZero row.rest_seconds }])
  (names, exercises)

/-- The state-building loop of `loadInitialData` over all fetched
rows. -/
def processInitialData (rows : List FetchedRow) :
    List (Nat × String) × List (Nat × List DayExercise) :=
  rows.foldl processRow ([], [])

/-! ## Sample data shared by witnesses and counterexamples -/

/-- A sample draft exercise. -/
def benchEx : DayExercise :=
  { id := "e1", name := "Bench Press", sets := 3, reps := 10, rest_seconds := 60 }

/-- A sample pre-existing remote assignment row of plan `p1`, week 2. -/
def oldRow : AssignmentRow :=
  { plan_id := "p1", week_number := some 2, day_order := 3, day_name := "Legs"
    exercise_id := none, sets := none, reps := none, rest_seconds := none }

/-- A sample catalog. -/
def benchCatalog : List CatalogExercise :=
  [{ id := "c1", name := "Bench Press" }, { id := "c2", name := "Back Squat" }]

/-- The empty AsyncStorage. -/
def emptyDraft : DraftStore := []

/-! ## Helper lemmas -/

theorem lookupKey_eq_none {α : Type} (l : List (Nat × α)) (k : Nat)
    (h : k ∉ l.map Prod.fst) : lookupKey l k = none := by
  induction l with
  | nil => rfl
  | cons hd tl ih =>
      simp only [List.map_cons, List.mem_cons] at h
      push_neg at h
      simp only [lookupKey]
      rw [if_neg (fun hk => h.1 hk.symm)]
      exact ih h.2

theorem lookupKey_mem {α : Type} (l : List (Nat × α)) (k : Nat) (v : α)
    (h : lookupKey l k = some v) : (k, v) ∈ l := by
  induction l with
  | nil => simp [lookupKey] at h
  | cons hd tl ih =>
      obtain ⟨a, b⟩ := hd
      simp only [lookupKey] at h
      by_cases hk : a = k
      · rw [if_pos hk] at h
        injection h with h2
        subst hk
        subst h2
        exact List.mem_cons_self _ _
      · rw [if_neg hk] at h
        exact List.mem_cons_of_mem _ (ih h)

theorem countP_key_of_nodup {α : Type} (l : List (Nat × α))
    (hk : (l.map Prod.fst).Nodup) (d : Nat) :
    l.countP (fun p => p.1 == d) =
      if (lookupKey l d).isSome then 1 else 0 := by
  induction l with
  | nil => simp [lookupKey]
  | cons hd tl ih =>
      simp only [List.map_cons, List.nodup_cons] at hk
      by_cases hd1 : hd.1 = d
      · have htl : lookupKey tl d = none := by
          apply lookupKey_eq_none
          rw [← hd1]
          exact hk.1
        have hcount : tl.countP (fun p => p.1 == d) = 0 := by
          rw [List.countP_eq_zero]
          intro p hp hbeq
          have : p.1 = d := by simpa using hbeq
          apply hk.1
          rw [hd1, ← this]
          exact List.mem_map_of_mem Prod.fst hp
        rw [List.countP_cons]
        simp [lookupKey, hd1, hcount]
      · rw [List.countP_cons]
        simp only [lookupKey, if_neg hd1]
        have : (hd.1 == d) = false := by simpa using hd1
        simp [this, ih hk.2]

theorem getItem_setItem_self (s : DraftStore) (k : String) (v : DraftValue) :
    getItem (setItem s k v) k = some v := by
  induction s with
  | nil => simp [setItem, getItem]
  | cons hd tl ih =>
      by_cases hk : hd.1 = k
      · simp [setItem, getItem, hk]
      · simp [setItem, getItem, hk, ih]

theorem getItem_setItem_ne (s : DraftStore) (k k' : String) (v : DraftValue)
    (h : k' ≠ k) : getItem (setItem s k' v) k = getItem s k := by
  induction s with
  | nil => simp [setItem, getItem, h]
  | cons hd tl ih =>
      by_cases hk : hd.1 = k'
      · have hne : hd.1 ≠ k := fun hh => h (hk.symm.trans hh)
        simp only [setItem, if_pos hk, getItem, if_neg hne]
      · simp only [setItem, if_neg hk, getItem]
        by_cases hk2 : hd.1 = k
        · rw [if_pos hk2, if_pos hk2]
        · rw [if_neg hk2, if_neg hk2, ih]

theorem getItem_removeItem (s : DraftStore) (k : String) :
    getItem (removeItem s k) k = none := by
  induction s with
  | nil => rfl
  | cons hd tl ih =>
      by_cases hk : hd.1 = k
      · simpa [removeItem, hk] using ih
      · simpa [removeItem, getItem, hk] using ih

theorem weekKeys_ne (planId : String) (w : Nat) :
    weekDayNamesKey planId w ≠ weekExercisesKey planId w := by
  intro h
  have hlen := congrArg String.length h
  simp only [weekDayNamesKey, weekExercisesKey, String.length_append] at hlen
  have h8 : ("DayNames" : String).length = 8 := rfl
  have h9 : ("Exercises" : String).length = 9 := rfl
  rw [h8, h9] at hlen
  omega

theorem countP_exRows_of_not_mem (planId : String) (w : Nat)
    (dn : List (Nat × String)) (de : List (Nat × List DayExercise)) (d : Nat)
    (h : d ∉ de.map Prod.fst) :
    (de.flatMap fun p => p.2.map (weekExerciseRow planId w dn p.1)).countP
      (fun r => r.day_order == d && r.exercise_id != none) = 0 := by
  rw [List.countP_eq_zero]
  intro r hr
  simp only [List.mem_flatMap, List.mem_map] at hr
  obtain ⟨p, hp, ex, hex, rfl⟩ := hr
  have hne : p.1 ≠ d := fun hh => h (hh ▸ List.mem_map_of_mem Prod.fst hp)
  simp [weekExerciseRow, hne]

theorem countP_exRows (planId : String) (w : Nat) (dn : List (Nat × String))
    (de : List (Nat × List DayExercise)) (hde : (de.map Prod.fst).Nodup)
    (d : Nat) :
    (de.flatMap fun p => p.2.map (weekExerciseRow planId w dn p.1)).countP
      (fun r => r.day_order == d && r.exercise_id != none)
    = ((lookupKey de d).getD []).length := by
  induction de with
  | nil => simp [lookupKey]
  | cons hd tl ih =>
      simp only [List.map_cons, List.nodup_cons] at hde
      rw [List.flatMap_cons, List.countP_append]
      by_cases hd1 : hd.1 = d
      · rw [countP_exRows_of_not_mem planId w dn tl d (hd1 ▸ hde.1)]
        rw [List.countP_map]
        have hall : hd.2.countP
            ((fun r => r.day_order == d && r.exercise_id != none) ∘
              weekExerciseRow planId w dn hd.1) = hd.2.length := by
          have h1 : hd.2.countP
              ((fun r => r.day_order == d && r.exercise_id != none) ∘
                weekExerciseRow planId w dn hd.1)
              = hd.2.countP (fun _ => true) := by
            apply List.countP_congr
            intro ex _
            simp [weekExerciseRow, hd1]
          rw [h1, List.countP_true]
        rw [hall]
        simp [lookupKey, hd1]
      · have h0 : (hd.2.map (weekExerciseRow planId w dn hd.1)).countP
            (fun r => r.day_order == d && r.exercise_id != none) = 0 := by
          rw [List.countP_eq_zero]
          intro r hr
          simp only [List.mem_map] at hr
          obtain ⟨ex, hex, rfl⟩ := hr
          simp [weekExerciseRow, hd1]
        rw [h0, ih hde.2]
        simp [lookupKey, hd1]

/-! ## C9: change detection is reflexive -/

/-- C9 (confirmed).  Comparing a draft against itself reports no pending
changes: `hasChanges` is false when the current day-name map and
day-exercise map coincide with the initial snapshot. -/
theorem hasChanges_refl (dn : List (Nat × String))
    (de : List (Nat × List DayExercise)) :
    hasChanges dn dn de de = false := by
  simp [hasChanges, dayNamesLengthDiff, dayNamesContentDiff,
        exercisesLengthDiff, exercisesContentDiff]

/-! ## C3: empty-list day versus absent day -/

/-- C3 (counterexample).  Comparing current `{1: []}` against initial
`{}` (and vice versa) reports pending changes, contrary to the claim
that the comparison treats an empty-list day as equal to an absent
day. -/
theorem hasChanges_emptyDay_counterexample :
    hasChanges [] [] [(1, [])] [] = true ∧ hasChanges [] [] [] [(1, [])] = true := by
  constructor <;> rfl

/-- C3 (amended).  Only the content comparison normalizes an empty-list
day to an absent key (`{k: []}` and `{}` have equal content in both
directions); the key-count comparison does not, so `hasChanges` still
reports pending changes for `{k: []}` versus `{}`. -/
theorem hasChanges_emptyDay_amended (k : Nat) :
    exercisesContentDiff [(k, [])] [] = false
    ∧ exercisesContentDiff [] [(k, [])] = false
    ∧ hasChanges [] [] [(k, [])] [] = true
    ∧ hasChanges [] [] [] [(k, [])] = true := by
  refine ⟨?_, ?_, ?_, ?_⟩ <;>
    simp [hasChanges, exercisesContentDiff, exercisesLengthDiff,
          dayNamesLengthDiff, dayNamesContentDiff, unionKeys, lookupKey]

/-! ## C1: rows written by the edit-mode week save -/

/-- C1 (counterexample).  An edit-mode week save of a draft whose day 1
is named "Arms" and holds one exercise inserts a placeholder row (null
exercise reference) for day 1, although day 1 has at least one
exercise — contrary to the claim that no placeholder row is inserted
for a named day with exercises. -/
theorem saveWeek_placeholder_counterexample :
    (lookupKey [(1, [benchEx])] 1).getD [] ≠ []
    ∧ ((handleSaveWeek "p1" 2 [(1, "Arms")] [(1, [benchEx])] [oldRow]
          emptyDraft).1.filter
        fun r => r.day_order == 1 && r.exercise_id == none).length = 1 := by
  constructor
  · decide
  · rfl

/-- C1 (amended).  The edit-mode week save first deletes all assignment
rows of the plan/week being replaced (the rows of that scope afterwards
are exactly the freshly built ones), and bulk-inserts exactly one
placeholder row (null exercise fields) per day that has an entry in the
day-name map — including named days that have exercises — plus exactly
one row per (day, exercise) pair of the draft. -/
theorem saveWeek_rows (planId : String) (w : Nat) (dn : List (Nat × String))
    (de : List (Nat × List DayExercise)) (remote : List AssignmentRow)
    (draft : DraftStore) (d : Nat)
    (hdn : (dn.map Prod.fst).Nodup) (hde : (de.map Prod.fst).Nodup) :
    ((handleSaveWeek planId w dn de remote draft).1.filter (inWeekScope planId w)
      = buildWeekRows planId w dn de)
    ∧ ((buildWeekRows planId w dn de).countP
        (fun r => r.day_order == d && r.exercise_id == none)
      = if (lookupKey dn d).isSome then 1 else 0)
    ∧ ((buildWeekRows planId w dn de).countP
        (fun r => r.day_order == d && r.exercise_id != none)
      = ((lookupKey de d).getD []).length) := by
  refine ⟨?_, ?_, ?_⟩
  · show ((remote.filter fun r => !inWeekScope planId w r)
        ++ buildWeekRows planId w dn de).filter (inWeekScope planId w) = _
    rw [List.filter_append]
    have h1 : (remote.filter fun r => !inWeekScope planId w r).filter
        (inWeekScope planId w) = [] := by
      rw [List.filter_filter, List.filter_eq_nil_iff]
      intro a _
      simp
    have h2 : (buildWeekRows planId w dn de).filter (inWeekScope planId w)
        = buildWeekRows planId w dn de := by
      rw [List.filter_eq_self]
      intro r hr
      simp only [buildWeekRows, List.mem_append, List.mem_map,
        List.mem_flatMap] at hr
      rcases hr with ⟨p, hp, rfl⟩ | ⟨p, hp, ex, hex, rfl⟩
      · simp [inWeekScope, weekPlaceholderRow]
      · simp [inWeekScope, weekExerciseRow]
    rw [h1, h2, List.nil_append]
  · unfold buildWeekRows
    rw [List.countP_append, List.countP_map]
    have hB : (de.flatMap fun p =>
        p.2.map (weekExerciseRow planId w dn p.1)).countP
        (fun r => r.day_order == d && r.exercise_id == none) = 0 := by
      rw [List.countP_eq_zero]
      intro r hr
      simp only [List.mem_flatMap, List.mem_map] at hr
      obtain ⟨p, hp, ex, hex, rfl⟩ := hr
      simp [weekExerciseRow]
    have hA : dn.countP
        ((fun r => r.day_order == d && r.exercise_id == none) ∘
          weekPlaceholderRow planId w)
        = dn.countP (fun p => p.1 == d) := by
      apply List.countP_congr
      intro p _
      simp [weekPlaceholderRow]
    rw [hB, hA, countP_key_of_nodup dn hdn d]
    omega
  · unfold buildWeekRows
    rw [List.countP_append]
    have hA : (dn.map (weekPlaceholderRow planId w)).countP
        (fun r => r.day_order == d && r.exercise_id != none) = 0 := by
      rw [List.countP_eq_zero]
      intro r hr
      simp only [List.mem_map] at hr
      obtain ⟨p, hp, rfl⟩ := hr
      simp [weekPlaceholderRow]
    rw [hA, countP_exRows planId w dn de hde d]
    omega

/-- C1 (witness).  The amended statement evaluated at a concrete
edit-mode week save: plan "p1", week 2, one named day holding one
exercise, one pre-existing row in scope. -/
theorem saveWeek_rows_witness :
    (((handleSaveWeek "p1" 2 [(1, "Arms")] [(1, [benchEx])] [oldRow]
          emptyDraft).1.filter (inWeekScope "p1" 2))
      = buildWeekRows "p1" 2 [(1, "Arms")] [(1, [benchEx])])
    ∧ ((buildWeekRows "p1" 2 [(1, "Arms")] [(1, [benchEx])]).countP
        (fun r => r.day_order == 1 && r.exercise_id == none)
      = if (lookupKey [(1, "Arms")] 1).isSome then 1 else 0)
    ∧ ((buildWeekRows "p1" 2 [(1, "Arms")] [(1, [benchEx])]).countP
        (fun r => r.day_order == 1 && r.exercise_id != none)
      = ((lookupKey [(1, [benchEx])] 1).getD []).length) :=
  saveWeek_rows "p1" 2 [(1, "Arms")] [(1, [benchEx])] [oldRow] emptyDraft 1
    (by decide) (by decide)

/-! ## C2: Draft Store entries after a successful save -/

/-- A Draft Store holding a plan-creation draft. -/
def planDraftStore : DraftStore :=
  [("newPlanFormData", .planForm "Strength" [] [])]

/-- C2 (counterexample).  After a successful edit-mode week save, a read
of the week scope's Draft Store key returns the just-saved state, not
nothing — the entry still exists, contrary to the claim that it does
for every scope. -/
theorem draftAfterSave_counterexample :
    getItem (handleSaveWeek "p1" 2 [(1, "Arms")] [(1, [benchEx])] [oldRow]
        emptyDraft).2 (weekDayNamesKey "p1" 2)
      = some (.names [(1, "Arms")]) := by
  rfl

/-- C2 (amended).  After a successful save, the plan-scope Draft Store
entry (`newPlanFormData`) no longer exists; the week-scope save instead
overwrites its two Draft Store entries with the just-saved state, so
they still exist and read back that state. -/
theorem draftAfterSave (newId name : String) (dn : List (Nat × String))
    (de : List (Nat × List DayExercise)) (st : RemoteState)
    (draft : DraftStore) (planId : String) (w : Nat)
    (dn2 : List (Nat × String)) (de2 : List (Nat × List DayExercise))
    (remote : List AssignmentRow) (draft2 : DraftStore)
    (hname : jsTrim name ≠ "")
    (hdays : de.any (missingDayName dn) = false) :
    getItem (handleSavePlan newId name dn de st draft).2.2 "newPlanFormData"
      = none
    ∧ getItem (handleSaveWeek planId w dn2 de2 remote draft2).2
        (weekDayNamesKey planId w) = some (.names dn2)
    ∧ getItem (handleSaveWeek planId w dn2 de2 remote draft2).2
        (weekExercisesKey planId w) = some (.exercisesBlob de2) := by
  refine ⟨?_, ?_, ?_⟩
  · have hsnd : (handleSavePlan newId name dn de st draft).2.2
        = removeItem draft "newPlanFormData" := by
      simp [handleSavePlan, hname, hdays]
    rw [hsnd]
    exact getItem_removeItem draft "newPlanFormData"
  · show getItem (setItem (setItem draft2 (weekDayNamesKey planId w)
        (.names dn2)) (weekExercisesKey planId w) (.exercisesBlob de2))
        (weekDayNamesKey planId w) = _
    rw [getItem_setItem_ne _ _ _ _ (weekKeys_ne planId w).symm]
    exact getItem_setItem_self _ _ _
  · exact getItem_setItem_self _ _ _

/-- C2 (witness).  The amended statement at a concrete plan save (with
a stored plan draft) and a concrete week save. -/
theorem draftAfterSave_witness :
    getItem (handleSavePlan "p2" "Strength" [] [] ⟨[], []⟩
        planDraftStore).2.2 "newPlanFormData" = none
    ∧ getItem (handleSaveWeek "p1" 2 [(2, "Arms")] [(2, [benchEx])] [oldRow]
        emptyDraft).2 (weekDayNamesKey "p1" 2) = some (.names [(2, "Arms")])
    ∧ getItem (handleSaveWeek "p1" 2 [(2, "Arms")] [(2, [benchEx])] [oldRow]
        emptyDraft).2 (weekExercisesKey "p1" 2)
      = some (.exercisesBlob [(2, [benchEx])]) :=
  draftAfterSave "p2" "Strength" [] [] ⟨[], []⟩ planDraftStore "p1" 2
    [(2, "Arms")] [(2, [benchEx])] [oldRow] emptyDraft
    (by decide) (by decide)

/-! ## C4: at most one current plan -/

/-- The plan row `handleSavePlan` inserts: current exactly when no
current plan exists. -/
def newPlanOf (st : RemoteState) (newId name : String) : Plan :=
  { id := newId
    name := jsTrim name
    is_current := (st.plans.filter (·.is_current)).isEmpty }

/-- A current plan. -/
def planA : Plan := { id := "pA", name := "Alpha", is_current := true }

/-- A non-current plan. -/
def planB : Plan := { id := "pB", name := "Beta", is_current := false }

/-- C4 (confirmed).  Both current-plan operations preserve the at-most-
one-current invariant: plan creation marks the new plan current exactly
when no current plan exists (so the invariant is preserved), and
marking a plan current first clears every plan's flag and then sets the
target's, leaving as many current plans as there are plans with the
target id — with unique ids, exactly one, namely the newly marked
one. -/
theorem currentPlan_ops (newId name : String) (dn : List (Nat × String))
    (de : List (Nat × List DayExercise)) (st : RemoteState)
    (draft : DraftStore) (id : String) (plans : List Plan) (plan : Plan)
    (p : Plan)
    (hinv : atMostOneCurrent st.plans) :
    atMostOneCurrent (handleSavePlan newId name dn de st draft).2.1.plans
    ∧ ((handleSavePlan newId name dn de st draft).1
        = SavePlanOutcome.success plan →
        plan.is_current = (st.plans.filter (·.is_current)).isEmpty)
    ∧ (handleChangePlan id plans).countP (·.is_current)
        = plans.countP (fun q => q.id == id)
    ∧ (p ∈ handleChangePlan id plans → p.is_current = true → p.id = id) := by
  refine ⟨?_, ?_, ?_, ?_⟩
  · by_cases h1 : jsTrim name = ""
    · simpa [handleSavePlan, h1] using hinv
    · by_cases h2 : de.any (missingDayName dn) = true
      · simpa [handleSavePlan, h1, h2] using hinv
      · have hpl : (handleSavePlan newId name dn de st draft).2.1.plans
            = st.plans ++ [newPlanOf st newId name] := by
          simp [handleSavePlan, newPlanOf, h1, h2]
        unfold atMostOneCurrent at hinv ⊢
        rw [hpl, List.countP_append]
        by_cases hcur : (st.plans.filter (fun q => q.is_current)).isEmpty = true
        · have hnil := List.isEmpty_iff.mp hcur
          have h0 : st.plans.countP (fun q => q.is_current) = 0 := by
            rw [List.countP_eq_zero]
            intro a ha hac
            exact absurd hac (List.filter_eq_nil_iff.mp hnil a ha)
          simp [newPlanOf, h0, hcur]
        · have hfalse : (st.plans.filter (fun q => q.is_current)).isEmpty
              = false := by
            simpa using hcur
          simp [newPlanOf, hfalse]
          simpa using hinv
  · intro hs
    by_cases h1 : jsTrim name = ""
    · simp [handleSavePlan, h1] at hs
    · by_cases h2 : de.any (missingDayName dn) = true
      · simp [handleSavePlan, h1, h2] at hs
      · simp [handleSavePlan, h1, h2] at hs
        rw [← hs]
  · unfold handleChangePlan
    rw [List.map_map, List.countP_map]
    apply List.countP_congr
    intro q _
    by_cases hq : q.id = id <;> simp [Function.comp, hq]
  · intro hp hcur
    unfold handleChangePlan at hp
    rw [List.map_map] at hp
    simp only [List.mem_map, Function.comp] at hp
    obtain ⟨q, hq, rfl⟩ := hp
    by_cases hqid : q.id = id
    · simp [hqid]
    · simp [hqid] at hcur

/-- C4 (witness).  The invariant statement at a concrete state: one
current plan, a successful creation of a second (not-current) plan, and
marking plan "pB" current while "pA" is current. -/
theorem currentPlan_ops_witness :
    atMostOneCurrent (handleSavePlan "p2" "Strength" [] [] ⟨[planA], []⟩
        emptyDraft).2.1.plans
    ∧ ((handleSavePlan "p2" "Strength" [] [] ⟨[planA], []⟩ emptyDraft).1
        = SavePlanOutcome.success
            { id := "p2", name := "Strength", is_current := false } →
        ({ id := "p2", name := "Strength", is_current := false } : Plan).is_current
          = (([planA] : List Plan).filter (·.is_current)).isEmpty)
    ∧ (handleChangePlan "pB" [planA, planB]).countP (·.is_current)
        = ([planA, planB] : List Plan).countP (fun q => q.id == "pB")
    ∧ (({ id := "pB", name := "Beta", is_current := true } : Plan)
          ∈ handleChangePlan "pB" [planA, planB] →
        ({ id := "pB", name := "Beta", is_current := true } : Plan).is_current
          = true →
        ({ id := "pB", name := "Beta", is_current := true } : Plan).id = "pB") :=
  currentPlan_ops "p2" "Strength" [] [] ⟨[planA], []⟩ emptyDraft "pB"
    [planA, planB] { id := "p2", name := "Strength", is_current := false }
    { id := "pB", name := "Beta", is_current := true } (by decide)

/-! ## C5: save rejects an empty or whitespace-only plan name -/

/-- C5 (confirmed).  Whenever the plan name trims to the empty string,
`handleSavePlan` reports the name validation alert and returns before
any remote call — remote state and Draft Store are unchanged —
regardless of the draft's day and exercise content. -/
theorem savePlan_rejects_empty_name (newId name : String)
    (dn : List (Nat × String)) (de : List (Nat × List DayExercise))
    (st : RemoteState) (draft : DraftStore)
    (h : jsTrim name = "") :
    handleSavePlan newId name dn de st draft
      = (SavePlanOutcome.nameAlert, st, draft) := by
  simp [handleSavePlan, h]

/-- C5 (witness).  A whitespace-only plan name with a non-trivial draft:
the save is rejected and nothing changes. -/
theorem savePlan_rejects_empty_name_witness :
    handleSavePlan "p2" "   " [(1, "Arms")] [(1, [benchEx])] ⟨[planA], []⟩
        planDraftStore
      = (SavePlanOutcome.nameAlert, ⟨[planA], []⟩, planDraftStore) :=
  savePlan_rejects_empty_name "p2" "   " [(1, "Arms")] [(1, [benchEx])]
    ⟨[planA], []⟩ planDraftStore (by decide)

/-! ## C6: save rejects a day with exercises but no day name -/

/-- C6 (confirmed).  Whenever some day of the draft has at least one
exercise and its day name is absent or trims to the empty string,
`handleSavePlan` reports a validation alert (the day-name alert, or the
plan-name alert when the plan name is also blank) before any remote
call: remote state and Draft Store are unchanged. -/
theorem savePlan_rejects_missing_day_name (newId name : String)
    (dn : List (Nat × String)) (de : List (Nat × List DayExercise))
    (st : RemoteState) (draft : DraftStore) (d : Nat)
    (exs : List DayExercise)
    (hmem : (d, exs) ∈ de) (hne : exs ≠ [])
    (hblank : jsTrim ((lookupKey dn d).getD "") = "") :
    ((handleSavePlan newId name dn de st draft).1 = SavePlanOutcome.nameAlert
      ∨ (handleSavePlan newId name dn de st draft).1
        = SavePlanOutcome.dayNamesAlert)
    ∧ (handleSavePlan newId name dn de st draft).2.1 = st
    ∧ (handleSavePlan newId name dn de st draft).2.2 = draft := by
  have hany : de.any (missingDayName dn) = true := by
    rw [List.any_eq_true]
    refine ⟨(d, exs), hmem, ?_⟩
    have hlen : 0 < exs.length := List.length_pos.mpr hne
    simp [missingDayName, hlen, hblank]
  by_cases h1 : jsTrim name = ""
  · refine ⟨Or.inl ?_, ?_, ?_⟩ <;> simp [handleSavePlan, h1]
  · refine ⟨Or.inr ?_, ?_, ?_⟩ <;> simp [handleSavePlan, h1, hany]

/-- C6 (witness).  A draft whose day 1 holds one exercise but has no
day name: the save is rejected with the day-name alert and nothing
changes. -/
theorem savePlan_rejects_missing_day_name_witness :
    ((handleSavePlan "p2" "Strength" [] [(1, [benchEx])] ⟨[planA], []⟩
        planDraftStore).1 = SavePlanOutcome.nameAlert
      ∨ (handleSavePlan "p2" "Strength" [] [(1, [benchEx])] ⟨[planA], []⟩
        planDraftStore).1 = SavePlanOutcome.dayNamesAlert)
    ∧ (handleSavePlan "p2" "Strength" [] [(1, [benchEx])] ⟨[planA], []⟩
        planDraftStore).2.1 = ⟨[planA], []⟩
    ∧ (handleSavePlan "p2" "Strength" [] [(1, [benchEx])] ⟨[planA], []⟩
        planDraftStore).2.2 = planDraftStore :=
  savePlan_rejects_missing_day_name "p2" "Strength" [] [(1, [benchEx])]
    ⟨[planA], []⟩ planDraftStore 1 [benchEx]
    (by decide) (by decide) (by decide)

/-! ## C7: exercise picker search -/

theorem charListLe_total (a b : List Char) :
    charListLe a b = true ∨ charListLe b a = true := by
  induction a generalizing b with
  | nil => left; rfl
  | cons x xs ih =>
      cases b with
      | nil => right; rfl
      | cons y ys =>
          by_cases hxy : x = y
          · subst hxy
            simp only [charListLe, if_pos rfl]
            exact ih ys
          · rcases lt_trichotomy x y with h | h | h
            · left
              simp [charListLe, hxy, h]
            · exact absurd h hxy
            · right
              have hyx : y ≠ x := fun hh => hxy hh.symm
              simp [charListLe, hyx, h]

theorem charListLe_trans (a b c : List Char) (hab : charListLe a b = true)
    (hbc : charListLe b c = true) : charListLe a c = true := by
  induction a generalizing b c with
  | nil => rfl
  | cons x xs ih =>
      cases b with
      | nil => simp [charListLe] at hab
      | cons y ys =>
          cases c with
          | nil => simp [charListLe] at hbc
          | cons z zs =>
              simp only [charListLe] at hab hbc ⊢
              by_cases hxy : x = y
              · subst hxy
                rw [if_pos rfl] at hab
                by_cases hxz : x = z
                · subst hxz
                  rw [if_pos rfl] at hbc
                  rw [if_pos rfl]
                  exact ih ys zs hab hbc
                · rw [if_neg hxz] at hbc ⊢
                  exact hbc
              · rw [if_neg hxy] at hab
                have hlt : x < y := of_decide_eq_true hab
                by_cases hyz : y = z
                · subst hyz
                  rw [if_neg hxy]
                  exact hab
                · rw [if_neg hyz] at hbc
                  have hlt2 : y < z := of_decide_eq_true hbc
                  have hxz : x < z := lt_trans hlt hlt2
                  rw [if_neg (ne_of_lt hxz)]
                  exact decide_eq_true hxz

instance : IsTotal CatalogExercise nameLe :=
  ⟨fun a b => charListLe_total a.name.data b.name.data⟩

instance : IsTrans CatalogExercise nameLe :=
  ⟨fun a b c => charListLe_trans a.name.data b.name.data c.name.data⟩

theorem isPrefixOf_nil (q : List Char) : q.isPrefixOf [] = q.isEmpty := by
  cases q <;> rfl

theorem containsSub_eq_tails (s q : List Char) :
    containsSub s q = s.tails.any fun t => q.isPrefixOf t := by
  induction s with
  | nil => simp [containsSub, isPrefixOf_nil]
  | cons x rest ih => simp [containsSub, List.tails_cons, ih]

theorem likeMatch_plain (q : List Char) (h1 : '%' ∉ q) (h2 : '_' ∉ q)
    (h3 : '\\' ∉ q) (s : List Char) :
    likeMatch (q ++ ['%']) s = q.isPrefixOf s := by
  induction q generalizing s with
  | nil =>
      rw [List.nil_append]
      have hmem : ([] : List Char) ∈ s.tails :=
        (List.mem_tails _ _).mpr List.nil_suffix
      simp only [likeMatch, List.isPrefixOf]
      rw [List.any_eq_true.mpr ⟨[], hmem, rfl⟩]
  | cons c q ih =>
      simp only [List.mem_cons, not_or] at h1 h2 h3
      have hc1 : c ≠ '%' := fun h => h1.1 h.symm
      have hc2 : c ≠ '_' := fun h => h2.1 h.symm
      have hc3 : c ≠ '\\' := fun h => h3.1 h.symm
      cases s with
      | nil =>
          simp [likeMatch, hc1, hc2, hc3, List.isPrefixOf]
      | cons x s' =>
          simp only [List.cons_append]
          rw [show likeMatch (c :: (q ++ ['%'])) (x :: s')
              = ((x == c) && likeMatch (q ++ ['%']) s') by
            simp [likeMatch, hc1, hc2, hc3]]
          rw [ih h1.2 h2.2 h3.2 s']
          show _ = ((c == x) && q.isPrefixOf s')
          have hbc : (x == c) = (c == x) := by
            by_cases hx : x = c
            · subst hx
              rfl
            · have hx' : ¬(c = x) := fun h => hx h.symm
              have e1 : (x == c) = false := by simpa using hx
              have e2 : (c == x) = false := by simpa using hx'
              rw [e1, e2]
          rw [hbc]

theorem likeMatch_sub (q : List Char) (h1 : '%' ∉ q) (h2 : '_' ∉ q)
    (h3 : '\\' ∉ q) (s : List Char) :
    likeMatch ('%' :: (q ++ ['%'])) s = containsSub s q := by
  have heq : ∀ t, likeMatch (q ++ ['%']) t = q.isPrefixOf t :=
    likeMatch_plain q h1 h2 h3
  simp only [likeMatch, heq, containsSub_eq_tails]

/-- C7 (counterexample).  The non-empty query "%" is returned verbatim
into the LIKE pattern, so the search returns "Back Squat" although
"back squat" does not contain "%" as a substring — contrary to the
claim that every result's name contains the query as a
case-insensitive substring. -/
theorem searchExercises_wildcard_counterexample :
    (⟨"c2", "Back Squat"⟩ : CatalogExercise)
      ∈ (searchExercises "%" benchCatalog).1
    ∧ containsSub (lowerStr "Back Squat").data (lowerStr "%").data
      = false := by
  constructor <;> decide

/-- C7 (amended).  The exercise search: a query that trims to the empty
string yields an empty result with no remote call; a non-empty query
makes the remote call and returns at most 10 results, sorted
alphabetically by name, every one drawn from the catalog with a name
matching the LIKE pattern `%query%` case-insensitively — and for a
query free of the LIKE metacharacters `%`, `_` and backslash this
match is exactly the case-insensitive substring test. -/
theorem searchExercises_like_spec (query : String)
    (catalog : List CatalogExercise) (e : CatalogExercise) :
    (jsTrim query = "" → searchExercises query catalog = ([], false))
    ∧ (jsTrim query ≠ "" →
        (searchExercises query catalog).2 = true
        ∧ (searchExercises query catalog).1.length ≤ 10
        ∧ (searchExercises query catalog).1.Sorted nameLe)
    ∧ (e ∈ (searchExercises query catalog).1 →
        e ∈ catalog ∧ nameMatches query e = true)
    ∧ ('%' ∉ (lowerStr query).data → '_' ∉ (lowerStr query).data →
        '\\' ∉ (lowerStr query).data →
        nameMatches query e
          = containsSub (lowerStr e.name).data (lowerStr query).data) := by
  refine ⟨?_, ?_, ?_, ?_⟩
  · intro h
    simp [searchExercises, h]
  · intro h
    refine ⟨?_, ?_, ?_⟩
    · simp [searchExercises, h]
    · simp only [searchExercises, if_neg h]
      exact List.length_take_le 10 _
    · simp only [searchExercises, if_neg h]
      exact List.Pairwise.sublist (List.take_sublist _ _)
        (List.sorted_insertionSort nameLe _)
  · intro he
    by_cases h : jsTrim query = ""
    · simp [searchExercises, h] at he
    · simp only [searchExercises, if_neg h] at he
      have h1 := List.take_subset 10 _ he
      have h2 := (List.perm_insertionSort nameLe
        (catalog.filter (nameMatches query))).mem_iff.mp h1
      exact List.mem_filter.mp h2
  · intro h1 h2 h3
    have hpc : Char.toLower '%' = '%' := rfl
    have hdata : (lowerStr ("%" ++ query ++ "%")).data
        = '%' :: ((lowerStr query).data ++ ['%']) := by
      show ("%" ++ query ++ "%").data.map Char.toLower = _
      rw [String.data_append, String.data_append]
      show ((['%'] ++ query.data) ++ ['%']).map Char.toLower = _
      simp [List.map_append, hpc]
      rfl
    show likeMatch (lowerStr ("%" ++ query ++ "%")).data
        (lowerStr e.name).data = _
    rw [hdata, likeMatch_sub _ h1 h2 h3]

/-- C7 (witness).  The amended spec at query "ben" against a catalog
holding "Bench Press" and "Back Squat", and at the empty query; "ben"
has no LIKE metacharacters, so its match is the substring test. -/
theorem searchExercises_like_spec_witness :
    ((searchExercises "ben" benchCatalog).2 = true
      ∧ (searchExercises "ben" benchCatalog).1.length ≤ 10
      ∧ (searchExercises "ben" benchCatalog).1.Sorted nameLe)
    ∧ searchExercises "" benchCatalog = ([], false)
    ∧ ((⟨"c1", "Bench Press"⟩ : CatalogExercise) ∈ benchCatalog
        ∧ nameMatches "ben" ⟨"c1", "Bench Press"⟩ = true)
    ∧ nameMatches "ben" ⟨"c1", "Bench Press"⟩
        = containsSub (lowerStr "Bench Press").data (lowerStr "ben").data :=
  ⟨(searchExercises_like_spec "ben" benchCatalog ⟨"c1", "Bench Press"⟩).2.1
      (by decide),
   (searchExercises_like_spec "" benchCatalog ⟨"c1", "Bench Press"⟩).1
      (by decide),
   (searchExercises_like_spec "ben" benchCatalog ⟨"c1", "Bench Press"⟩).2.2.1
      (by decide),
   (searchExercises_like_spec "ben" benchCatalog ⟨"c1", "Bench Press"⟩).2.2.2
      (by decide) (by decide) (by decide)⟩

/-! ## C10: search error path -/

/-- C10 (confirmed).  When the remote search query fails, the screen's
state update leaves the previously displayed result list unchanged and
raises no user-facing alert (the error is only logged). -/
theorem searchError_leaves_state (query : String)
    (prev : List CatalogExercise) (msg : String)
    (h : jsTrim query ≠ "") :
    searchExercisesUpdate query prev (Except.error msg) = (prev, []) := by
  simp [searchExercisesUpdate, h]

/-- C10 (witness).  A failing search for "ben" keeps the one displayed
result and alerts nothing. -/
theorem searchError_leaves_state_witness :
    searchExercisesUpdate "ben" [⟨"c1", "Bench Press"⟩]
        (Except.error "network") = ([⟨"c1", "Bench Press"⟩], []) :=
  searchError_leaves_state "ben" [⟨"c1", "Bench Press"⟩] "network"
    (by decide)

/-! ## C8: bounds on exercise assignment rows -/

theorem mem_insertAssoc {α : Type} (l : List (Nat × α)) (k : Nat) (v : α)
    (q : Nat × α) (h : q ∈ insertAssoc l k v) : q.2 = v ∨ q ∈ l := by
  induction l with
  | nil =>
      simp only [insertAssoc, List.mem_singleton] at h
      left
      rw [h]
  | cons hd tl ih =>
      simp only [insertAssoc] at h
      by_cases hk : hd.1 = k
      · rw [if_pos hk] at h
        rcases List.mem_cons.mp h with h | h
        · left
          rw [h]
        · right
          exact List.mem_cons_of_mem _ h
      · rw [if_neg hk] at h
        rcases List.mem_cons.mp h with h | h
        · right
          exact h ▸ List.mem_cons_self _ _
        · rcases ih h with h | h
          · left
            exact h
          · right
            exact List.mem_cons_of_mem _ h

theorem processRow_bounded
    (acc : List (Nat × String) × List (Nat × List DayExercise))
    (fr : FetchedRow)
    (hfr : fr.exercise_id.isSome = true →
      1 ≤ orZero fr.sets ∧ 1 ≤ orZero fr.reps ∧ 0 ≤ orZero fr.rest_seconds)
    (hacc : ∀ p ∈ acc.2, ∀ e ∈ p.2,
      1 ≤ e.sets ∧ 1 ≤ e.reps ∧ 0 ≤ e.rest_seconds) :
    ∀ p ∈ (processRow acc fr).2, ∀ e ∈ p.2,
      1 ≤ e.sets ∧ 1 ≤ e.reps ∧ 0 ≤ e.rest_seconds := by
  intro p hp e he
  simp only [processRow] at hp
  rcases hid : fr.exercise_id with _ | exId
  · rw [hid] at hp
    exact hacc p hp e he
  · rw [hid] at hp
    rcases mem_insertAssoc _ _ _ _ hp with hnew | hold
    · rw [hnew] at he
      rcases List.mem_append.mp he with hmem | hmem
      · rcases hl : lookupKey acc.2 fr.day_order with _ | v
        · rw [hl] at hmem
          simp at hmem
        · rw [hl] at hmem
          exact hacc _ (lookupKey_mem acc.2 fr.day_order v hl) e hmem
      · have hb := hfr (by rw [hid]; rfl)
        rcases List.mem_singleton.mp hmem with rfl
        exact hb
    · exact hacc p hold e he

theorem foldl_processRow_bounded (frows : List FetchedRow)
    (acc : List (Nat × String) × List (Nat × List DayExercise))
    (hrows : ∀ fr ∈ frows, fr.exercise_id.isSome = true →
      1 ≤ orZero fr.sets ∧ 1 ≤ orZero fr.reps ∧ 0 ≤ orZero fr.rest_seconds)
    (hacc : ∀ p ∈ acc.2, ∀ e ∈ p.2,
      1 ≤ e.sets ∧ 1 ≤ e.reps ∧ 0 ≤ e.rest_seconds) :
    ∀ p ∈ (frows.foldl processRow acc).2, ∀ e ∈ p.2,
      1 ≤ e.sets ∧ 1 ≤ e.reps ∧ 0 ≤ e.rest_seconds := by
  induction frows generalizing acc with
  | nil => exact hacc
  | cons fr tl ih =>
      rw [List.foldl_cons]
      exact ih (processRow acc fr)
        (fun g hg => hrows g (List.mem_cons_of_mem fr hg))
        (processRow_bounded acc fr (hrows fr (List.mem_cons_self fr tl)) hacc)

/-- The row inserted by a successful add-exercise save with sets "3",
reps "10", rest "60". -/
def insertedRow0 : AssignmentRow :=
  { plan_id := "p1", week_number := none, day_order := 1, day_name := "Arms"
    exercise_id := some "c1", sets := some 3, reps := some 10
    rest_seconds := some 60 }

/-- A fetched row referencing an exercise, as loaded by the edit-mode
week screen. -/
def fetchedRow0 : FetchedRow :=
  { day_order := 1, day_name := "Arms", exercise_id := some "e1"
    exercise_name := "Bench Press", sets := some 3, reps := some 10
    rest_seconds := some 60 }

/-- C8 (confirmed).  Bounds on assignment rows carrying an exercise
reference: a row inserted by the add-exercise save has non-null
sets/reps/rest with `sets ≥ 1`, `reps ≥ 1`, `rest_seconds ≥ 0`; the
add-exercise save alerts (no remote write) whenever the parsed inputs
are missing or out of range; every exercise row built by the week save
meets the bounds whenever the draft state does; and the edit-mode
initial load produces only in-bounds draft exercises from in-bounds
fetched rows. -/
theorem assignmentRow_bounds (selected : Option CatalogExercise)
    (sets reps restSeconds planId dayName : String) (dayOrder : Nat)
    (row : AssignmentRow) (pw : String) (w : Nat)
    (dn : List (Nat × String)) (de : List (Nat × List DayExercise))
    (r : AssignmentRow) (frows : List FetchedRow) (d : Nat)
    (exs : List DayExercise) (ex : DayExercise) :
    (addExerciseHandleSave selected sets reps restSeconds planId dayName
        dayOrder = AddExerciseResult.inserted row →
      row.exercise_id.isSome = true ∧ row.sets.isSome = true
      ∧ row.reps.isSome = true ∧ row.rest_seconds.isSome = true
      ∧ 1 ≤ orZero row.sets ∧ 1 ≤ orZero row.reps
      ∧ 0 ≤ orZero row.rest_seconds)
    ∧ (¬(1 ≤ (jsParseInt sets).getD 0 ∧ 1 ≤ (jsParseInt reps).getD 0
          ∧ 0 ≤ (jsParseInt restSeconds).getD (-1)) →
        ∃ msg, addExerciseHandleSave selected sets reps restSeconds planId
          dayName dayOrder = AddExerciseResult.alert msg)
    ∧ ((∀ p ∈ de, ∀ e ∈ p.2,
          1 ≤ e.sets ∧ 1 ≤ e.reps ∧ 0 ≤ e.rest_seconds) →
        r ∈ buildWeekRows pw w dn de → r.exercise_id.isSome = true →
        1 ≤ orZero r.sets ∧ 1 ≤ orZero r.reps ∧ 0 ≤ orZero r.rest_seconds)
    ∧ ((∀ fr ∈ frows, fr.exercise_id.isSome = true →
          1 ≤ orZero fr.sets ∧ 1 ≤ orZero fr.reps
          ∧ 0 ≤ orZero fr.rest_seconds) →
        (d, exs) ∈ (processInitialData frows).2 → ex ∈ exs →
        1 ≤ ex.sets ∧ 1 ≤ ex.reps ∧ 0 ≤ ex.rest_seconds) := by
  refine ⟨?_, ?_, ?_, ?_⟩
  · intro hins
    rcases selected with _ | exsel
    · simp [addExerciseHandleSave] at hins
    · rcases hs : jsParseInt sets with _ | s
      · simp [addExerciseHandleSave, hs] at hins
      · by_cases h1 : s < 1
        · simp [addExerciseHandleSave, hs, h1] at hins
        · rcases hr : jsParseInt reps with _ | rp
          · simp [addExerciseHandleSave, hs, h1, hr] at hins
          · by_cases h2 : rp < 1
            · simp [addExerciseHandleSave, hs, h1, hr, h2] at hins
            · rcases ht : jsParseInt restSeconds with _ | t
              · simp [addExerciseHandleSave, hs, h1, hr, h2, ht] at hins
              · by_cases h3 : t < 0
                · simp [addExerciseHandleSave, hs, h1, hr, h2, ht, h3]
                    at hins
                · simp only [addExerciseHandleSave, hs, h1, hr, h2, ht, h3,
                    if_false, AddExerciseResult.inserted.injEq] at hins
                  rw [← hins]
                  refine ⟨rfl, rfl, rfl, rfl, ?_, ?_, ?_⟩ <;>
                    simp [orZero] <;> omega
  · intro hnv
    rcases selected with _ | exsel
    · exact ⟨"Please select an exercise", rfl⟩
    · rcases hs : jsParseInt sets with _ | s
      · exact ⟨"Please enter a valid number of sets",
          by simp [addExerciseHandleSave, hs]⟩
      · by_cases h1 : s < 1
        · exact ⟨"Please enter a valid number of sets",
            by simp [addExerciseHandleSave, hs, h1]⟩
        · rcases hr : jsParseInt reps with _ | rp
          · exact ⟨"Please enter a valid number of reps",
              by simp [addExerciseHandleSave, hs, h1, hr]⟩
          · by_cases h2 : rp < 1
            · exact ⟨"Please enter a valid number of reps",
                by simp [addExerciseHandleSave, hs, h1, hr, h2]⟩
            · rcases ht : jsParseInt restSeconds with _ | t
              · exact ⟨"Please enter a valid rest time",
                  by simp [addExerciseHandleSave, hs, h1, hr, h2, ht]⟩
              · by_cases h3 : t < 0
                · exact ⟨"Please enter a valid rest time",
                    by simp [addExerciseHandleSave, hs, h1, hr, h2, ht, h3]⟩
                · exfalso
                  apply hnv
                  refine ⟨?_, ?_, ?_⟩ <;> simp [hs, hr, ht] <;> omega
  · intro hstate hr hsome
    simp only [buildWeekRows, List.mem_append, List.mem_map,
      List.mem_flatMap] at hr
    rcases hr with ⟨p, hp, rfl⟩ | ⟨p, hp, ex2, hex2, rfl⟩
    · simp [weekPlaceholderRow] at hsome
    · have hb := hstate p hp ex2 hex2
      simpa [weekExerciseRow, orZero] using hb
  · intro hrows hmem hex
    exact foldl_processRow_bounded frows ([], []) hrows (by simp)
      (d, exs) hmem ex hex

/-- C8 (witness).  The bounds statement evaluated at a successful
add-exercise save ("3"/"10"/"60"), a rejected one (non-numeric sets), a
week-save exercise row, and an initial load of one fetched row. -/
theorem assignmentRow_bounds_witness :
    (insertedRow0.exercise_id.isSome = true ∧ insertedRow0.sets.isSome = true
      ∧ insertedRow0.reps.isSome = true
      ∧ insertedRow0.rest_seconds.isSome = true
      ∧ 1 ≤ orZero insertedRow0.sets ∧ 1 ≤ orZero insertedRow0.reps
      ∧ 0 ≤ orZero insertedRow0.rest_seconds)
    ∧ (∃ msg, addExerciseHandleSave (some ⟨"c1", "Bench Press"⟩) "abc" "10"
        "60" "p1" "Arms" 1 = AddExerciseResult.alert msg)
    ∧ (1 ≤ orZero (weekExerciseRow "p1" 2 [(1, "Arms")] 1 benchEx).sets
      ∧ 1 ≤ orZero (weekExerciseRow "p1" 2 [(1, "Arms")] 1 benchEx).reps
      ∧ 0 ≤ orZero (weekExerciseRow "p1" 2 [(1, "Arms")] 1 benchEx).rest_seconds)
    ∧ (1 ≤ benchEx.sets ∧ 1 ≤ benchEx.reps ∧ 0 ≤ benchEx.rest_seconds) :=
  ⟨(assignmentRow_bounds (some ⟨"c1", "Bench Press"⟩) "3" "10" "60" "p1"
      "Arms" 1 insertedRow0 "p1" 2 [(1, "Arms")] [(1, [benchEx])]
      (weekExerciseRow "p1" 2 [(1, "Arms")] 1 benchEx) [fetchedRow0] 1
      [benchEx] benchEx).1 (by decide),
   (assignmentRow_bounds (some ⟨"c1", "Bench Press"⟩) "abc" "10" "60" "p1"
      "Arms" 1 insertedRow0 "p1" 2 [(1, "Arms")] [(1, [benchEx])]
      (weekExerciseRow "p1" 2 [(1, "Arms")] 1 benchEx) [fetchedRow0] 1
      [benchEx] benchEx).2.1 (by decide),
   (assignmentRow_bounds (some ⟨"c1", "Bench Press"⟩) "3" "10" "60" "p1"
      "Arms" 1 insertedRow0 "p1" 2 [(1, "Arms")] [(1, [benchEx])]
      (weekExerciseRow "p1" 2 [(1, "Arms")] 1 benchEx) [fetchedRow0] 1
      [benchEx] benchEx).2.2.1 (by decide) (by decide) (by decide),
   (assignmentRow_bounds (some ⟨"c1", "Bench Press"⟩) "3" "10" "60" "p1"
      "Arms" 1 insertedRow0 "p1" 2 [(1, "Arms")] [(1, [benchEx])]
      (weekExerciseRow "p1" 2 [(1, "Arms")] 1 benchEx) [fetchedRow0] 1
      [benchEx] benchEx).2.2.2 (by decide) (by decide) (by decide)⟩

end Northstar
